import Mathlib

/-!
Shallow embedding of the consensus–mempool adapter (`MempoolProxy` in
`consensus/src/txn_manager.rs`) of the libra repository.

Modelling conventions:
- `u64` fields become `Nat` (no arithmetic is performed on them, so no
  overflow reduction is needed).
- The opaque payload and signature of a `SignedTransaction`, and the detail
  argument of a `TransactionStatus` variant, are modelled as opaque `Nat`
  codes; the adapter never inspects them.
- The mempool RPC client is a function parameter: the outer `Except` is the
  synchronous accept/reject of `*_async`, the inner `Except` is the value the
  completion handle resolves to after `await`.
- A Rust panic (the slice-out-of-range on `compute_status[1..]` and the
  failing `assert_eq!`) is modelled as `none` / an aborted call with no
  request issued.
- Prometheus counters become a `Counters` record threaded through the calls;
  the histogram is modelled as the list of observed block sizes.
- The security-audit sink becomes the list of emitted
  `InvalidTransactionConsensus` events, each carrying the decode error and
  the offending wire transaction.
-/

namespace TxnManager

/-- A signed transaction as the adapter sees it: sender address bytes, the
per-sender sequence number, and opaque payload and signature. -/
structure SignedTransaction where
  sender : List Nat
  sequence_number : Nat
  payload : Nat
  signature : Nat
  deriving DecidableEq

/-- Executor verdict for one transaction, `TransactionStatus` in
`libra_types`; the variant argument is an opaque detail code. -/
inductive TransactionStatus where
  | Keep : Nat → TransactionStatus
  | Discard : Nat → TransactionStatus
  deriving DecidableEq

/-- Boolean projection onto the variant of a status. -/
def TransactionStatus.isDiscard : TransactionStatus → Bool
  | .Keep _ => false
  | .Discard _ => true

/-- `StateComputeResult`: the executor's ordered status sequence, index 0
being the synthetic prologue entry. -/
structure StateComputeResult where
  compute_status : List TransactionStatus
  deriving DecidableEq

/-- Wire record `CommittedTransaction` of the mempool proto. -/
structure CommittedTransaction where
  sender : List Nat
  sequence_number : Nat
  is_rejected : Bool
  deriving DecidableEq

/-- Wire message `CommitTransactionsRequest` of the mempool proto. -/
structure CommitTransactionsRequest where
  transactions : List CommittedTransaction
  block_timestamp_usecs : Nat
  deriving DecidableEq

/-- Wire record `TransactionExclusion` of the mempool proto. -/
structure TransactionExclusion where
  sender : List Nat
  sequence_number : Nat
  deriving DecidableEq

/-- Wire message `GetBlockRequest` of the mempool proto. -/
structure GetBlockRequest where
  max_block_size : Nat
  transactions : List TransactionExclusion
  deriving DecidableEq

/-- Wire `Block`, parametric in the wire-transaction type `W` (the adapter
only ever decodes it through `SignedTransaction::try_from`). -/
structure Block (W : Type) where
  transactions : List W
  deriving DecidableEq

/-- Wire message `GetBlockResponse`; `block` is optional on the wire. -/
structure GetBlockResponse (W : Type) where
  block : Option (Block W)
  deriving DecidableEq

/-- The counters of `consensus::counters` touched by the adapter.
`num_txns_per_block_obs` lists the histogram observations in order. -/
structure Counters where
  committed_blocks_count : Nat
  num_txns_per_block_obs : List Nat
  committed_txns_success : Nat
  committed_txns_failed : Nat
  deriving DecidableEq

/-- One `SecurityEvent::InvalidTransactionConsensus` audit record: the decode
error and the offending wire transaction (`.error(&e).data(&proto_txn)`). -/
structure AuditEvent (W E : Type) where
  error : E
  data : W
  deriving DecidableEq

/-- One iteration of the loop in `gen_commit_transactions_request`: build the
`CommittedTransaction` from the zipped pair and tick the outcome counter. -/
def commit_step (acc : Counters × List CommittedTransaction)
    (pair : SignedTransaction × TransactionStatus) :
    Counters × List CommittedTransaction :=
  let transaction : CommittedTransaction :=
    { sender := pair.1.sender
      sequence_number := pair.1.sequence_number
      is_rejected := false }
  match pair.2 with
  | TransactionStatus.Keep _ =>
    ({ acc.1 with committed_txns_success := acc.1.committed_txns_success + 1 },
     acc.2 ++ [{ transaction with is_rejected := false }])
  | TransactionStatus.Discard _ =>
    ({ acc.1 with committed_txns_failed := acc.1.committed_txns_failed + 1 },
     acc.2 ++ [{ transaction with is_rejected := true }])

/-- `MempoolProxy::gen_commit_transactions_request`. Faithful to the source:
it slices `compute_status[1..]` (panicking, i.e. `none`, when the status list
is empty), asserts the sliced length against `txns.len()`, but then zips the
transactions with the FULL `compute_status` list, so the status paired with
`txns[i]` is `compute_status[i]`, prologue included. -/
def gen_commit_transactions_request (counters : Counters)
    (txns : List SignedTransaction) (compute_result : StateComputeResult)
    (timestamp_usecs : Nat) : Option (Counters × CommitTransactionsRequest) :=
  match compute_result.compute_status with
  | [] => none
  | _ :: status =>
    if txns.length = status.length then
      let folded :=
        (txns.zip compute_result.compute_status).foldl commit_step (counters, [])
      some (folded.1,
        { transactions := folded.2, block_timestamp_usecs := timestamp_usecs })
    else
      none

/-- `MempoolProxy::submit_commit_transactions_request`: a synchronous
rejection becomes an immediately failed future, otherwise the awaited
receiver's error (if any) is propagated. -/
def submit_commit_transactions_request {Err : Type}
    (client : CommitTransactionsRequest → Except Err (Except Err Unit))
    (req : CommitTransactionsRequest) : Except Err Unit :=
  match client req with
  | Except.ok receiver =>
    match receiver with
    | Except.ok _ => Except.ok ()
    | Except.error e => Except.error e
  | Except.error e => Except.error e

/-- Observable result of one `commit_txns` call: the counters after the call,
the requests handed to the RPC client, and the call's outcome (`none` models
the fatal abort of the failed alignment assertion). -/
structure CommitCallResult (Err : Type) where
  counters : Counters
  issued : List CommitTransactionsRequest
  outcome : Option (Except Err Unit)

/-- `MempoolProxy::commit_txns`: bump the block counter and the per-block
histogram, generate the request (fatally aborting on misalignment, before any
RPC), then submit it. -/
def commit_txns {Err : Type}
    (client : CommitTransactionsRequest → Except Err (Except Err Unit))
    (counters : Counters) (txns : List SignedTransaction)
    (compute_result : StateComputeResult) (timestamp_usecs : Nat) :
    CommitCallResult Err :=
  let counters :=
    { counters with
        committed_blocks_count := counters.committed_blocks_count + 1
        num_txns_per_block_obs :=
          counters.num_txns_per_block_obs ++ [txns.length] }
  match gen_commit_transactions_request counters txns compute_result
      timestamp_usecs with
  | none => { counters := counters, issued := [], outcome := none }
  | some result =>
    { counters := result.1
      issued := [result.2]
      outcome := some (submit_commit_transactions_request client result.2) }

/-- The exclusion-building loop at the top of `MempoolProxy::pull_txns`: for
each payload, for each transaction, push a `TransactionExclusion` with the
transaction's sender and sequence number. -/
def gen_exclude_txns (exclude_payloads : List (List SignedTransaction)) :
    List TransactionExclusion :=
  exclude_payloads.foldl
    (fun exclude_txns payload =>
      payload.foldl
        (fun exclude_txns transaction =>
          exclude_txns ++
            [{ sender := transaction.sender
               sequence_number := transaction.sequence_number }])
        exclude_txns)
    []

/-- The decode loop of `pull_txns` over the response block's transactions:
`filter_map` with `SignedTransaction::try_from`, logging one
`InvalidTransactionConsensus` event per failing transaction. `decode` stands
for `SignedTransaction::try_from`, which lives outside this crate. -/
def decode_block_transactions {W E : Type}
    (decode : W → Except E SignedTransaction) :
    List W → List SignedTransaction × List (AuditEvent W E)
  | [] => ([], [])
  | proto_txn :: rest =>
    let tail := decode_block_transactions decode rest
    match decode proto_txn with
    | Except.ok t => (t :: tail.1, tail.2)
    | Except.error e => (tail.1, { error := e, data := proto_txn } :: tail.2)

/-- Observable result of one `pull_txns` call: the `GetBlockRequest` handed
to the RPC client, the outcome the returned future resolves to, and the
emitted security-audit events. -/
structure PullCallResult (W E Err : Type) where
  issued : GetBlockRequest
  outcome : Except Err (List SignedTransaction)
  audit : List (AuditEvent W E)

/-- `MempoolProxy::pull_txns`: build the exclusion list and the
`GetBlockRequest`, call `get_block_async`, and on a successful response take
the optional `block` (defaulting to an empty one) and decode its
transactions in order, dropping and auditing the undecodable ones; transport
errors, synchronous or awaited, resolve the future with the error. -/
def pull_txns {W E Err : Type}
    (client : GetBlockRequest → Except Err (Except Err (GetBlockResponse W)))
    (decode : W → Except E SignedTransaction)
    (max_size : Nat) (exclude_payloads : List (List SignedTransaction)) :
    PullCallResult W E Err :=
  let get_block_request : GetBlockRequest :=
    { max_block_size := max_size
      transactions := gen_exclude_txns exclude_payloads }
  match client get_block_request with
  | Except.ok receiver =>
    match receiver with
    | Except.ok response =>
      let decoded :=
        decode_block_transactions decode
          (response.block.getD { transactions := [] }).transactions
      { issued := get_block_request
        outcome := Except.ok decoded.1
        audit := decoded.2 }
    | Except.error e =>
      { issued := get_block_request, outcome := Except.error e, audit := [] }
  | Except.error e =>
    { issued := get_block_request, outcome := Except.error e, audit := [] }

/-- Payload Translator `to_exclusion` of the specification: projection of a
transaction onto its (sender, sequence_number) wire identity. Stated from
the spec's words, to be compared with the loop in `gen_exclude_txns`. -/
def to_exclusion (txn : SignedTransaction) : TransactionExclusion :=
  { sender := txn.sender, sequence_number := txn.sequence_number }

/-- Payload Translator `to_committed_record` of the specification: the
record a committed transaction should produce under a given status. -/
def committed_record (pair : SignedTransaction × TransactionStatus) :
    CommittedTransaction :=
  { sender := pair.1.sender
    sequence_number := pair.1.sequence_number
    is_rejected := pair.2.isDiscard }

/-- The (sender, sequence_number) wire identity of a transaction. -/
def txn_identity (t : SignedTransaction) : List Nat × Nat :=
  (t.sender, t.sequence_number)

/-- All-zero counter state, used by concrete instances. -/
def counters0 : Counters :=
  { committed_blocks_count := 0
    num_txns_per_block_obs := []
    committed_txns_success := 0
    committed_txns_failed := 0 }

/-- The decoder used by concrete witness instances: even codes decode, odd
codes fail. -/
def decode_even (n : Nat) : Except Nat SignedTransaction :=
  if n % 2 = 0 then
    Except.ok
      { sender := [n], sequence_number := n, payload := 0, signature := 0 }
  else
    Except.error n

/-! Helper lemmas. -/

lemma countP_add_countP_not {α : Type} (p : α → Bool) (l : List α) :
    l.countP (fun a => !p a) + l.countP p = l.length := by
  induction l with
  | nil => simp
  | cons x rest ih =>
    rw [List.countP_cons, List.countP_cons, List.length_cons]
    cases hx : p x <;> simp [hx] <;> omega

lemma foldl_push_eq_append_map {α β : Type} (f : α → β) (l : List α)
    (acc : List β) :
    l.foldl (fun a t => a ++ [f t]) acc = acc ++ l.map f := by
  induction l generalizing acc with
  | nil => simp
  | cons x rest ih => simp [ih]

lemma gen_exclude_txns_foldl (ps : List (List SignedTransaction))
    (acc : List TransactionExclusion) :
    ps.foldl
        (fun a payload => payload.foldl (fun a t => a ++ [to_exclusion t]) a)
        acc =
      acc ++ (ps.map fun p => p.map to_exclusion).flatten := by
  induction ps generalizing acc with
  | nil => simp
  | cons p rest ih =>
    rw [List.foldl_cons, ih, foldl_push_eq_append_map]
    simp

lemma gen_exclude_txns_eq (ps : List (List SignedTransaction)) :
    gen_exclude_txns ps = (ps.map fun p => p.map to_exclusion).flatten := by
  show ps.foldl
      (fun a payload => payload.foldl (fun a t => a ++ [to_exclusion t]) a)
      [] = _
  rw [gen_exclude_txns_foldl]
  simp

lemma commit_fold_eq (l : List (SignedTransaction × TransactionStatus))
    (c : Counters) (acc : List CommittedTransaction) :
    l.foldl commit_step (c, acc) =
      ({ c with
           committed_txns_success :=
             c.committed_txns_success + l.countP (fun p => !p.2.isDiscard)
           committed_txns_failed :=
             c.committed_txns_failed + l.countP (fun p => p.2.isDiscard) },
       acc ++ l.map committed_record) := by
  induction l generalizing c acc with
  | nil => simp
  | cons p rest ih =>
    obtain ⟨t, s⟩ := p
    cases s with
    | Keep d =>
      rw [List.foldl_cons]
      show List.foldl commit_step
          ({ c with committed_txns_success := c.committed_txns_success + 1 },
           acc ++ [committed_record (t, TransactionStatus.Keep d)]) rest = _
      rw [ih]
      simp [List.countP_cons, TransactionStatus.isDiscard, committed_record]
      omega
    | Discard d =>
      rw [List.foldl_cons]
      show List.foldl commit_step
          ({ c with committed_txns_failed := c.committed_txns_failed + 1 },
           acc ++ [committed_record (t, TransactionStatus.Discard d)]) rest = _
      rw [ih]
      simp [List.countP_cons, TransactionStatus.isDiscard, committed_record]
      omega

lemma gen_eq_of_aligned (c : Counters) (txns : List SignedTransaction)
    (cr : StateComputeResult) (ts : Nat)
    (h : cr.compute_status.length = txns.length + 1) :
    gen_commit_transactions_request c txns cr ts =
      some
        ({ c with
             committed_txns_success := c.committed_txns_success +
               ((txns.zip cr.compute_status).countP fun p => !p.2.isDiscard)
             committed_txns_failed := c.committed_txns_failed +
               ((txns.zip cr.compute_status).countP fun p => p.2.isDiscard) },
         { transactions := (txns.zip cr.compute_status).map committed_record
           block_timestamp_usecs := ts }) := by
  obtain ⟨ss⟩ := cr
  cases ss with
  | nil => simp at h
  | cons s0 rest =>
    have hl : txns.length = rest.length := by
      simp only [List.length_cons] at h
      omega
    simp [gen_commit_transactions_request, hl, commit_fold_eq]

lemma gen_eq_none_of_misaligned (c : Counters) (txns : List SignedTransaction)
    (cr : StateComputeResult) (ts : Nat)
    (h : cr.compute_status.length ≠ txns.length + 1) :
    gen_commit_transactions_request c txns cr ts = none := by
  obtain ⟨ss⟩ := cr
  cases ss with
  | nil => rfl
  | cons s0 rest =>
    have hl : ¬ txns.length = rest.length := by
      simp only [List.length_cons] at h
      omega
    simp [gen_commit_transactions_request, hl]

lemma decode_fst_eq_filterMap {W E : Type}
    (decode : W → Except E SignedTransaction) (ws : List W) :
    (decode_block_transactions decode ws).1 =
      ws.filterMap fun w => (decode w).toOption := by
  induction ws with
  | nil => rfl
  | cons w rest ih =>
    simp only [decode_block_transactions]
    cases hw : decode w <;>
      simp [List.filterMap_cons, hw, Except.toOption, ih]

lemma decode_snd_length {W E : Type}
    (decode : W → Except E SignedTransaction) (ws : List W) :
    (decode_block_transactions decode ws).2.length =
      ws.countP fun w => (decode w).toOption.isNone := by
  induction ws with
  | nil => rfl
  | cons w rest ih =>
    simp only [decode_block_transactions, List.countP_cons]
    cases hw : decode w <;> simp [hw, Except.toOption, ih]

lemma decode_lengths_sum {W E : Type}
    (decode : W → Except E SignedTransaction) (ws : List W) :
    (decode_block_transactions decode ws).1.length +
      (decode_block_transactions decode ws).2.length = ws.length := by
  induction ws with
  | nil => rfl
  | cons w rest ih =>
    simp only [decode_block_transactions]
    cases hw : decode w <;> simp [hw] <;> omega

lemma pull_txns_issued {W E Err : Type}
    (client : GetBlockRequest → Except Err (Except Err (GetBlockResponse W)))
    (decode : W → Except E SignedTransaction)
    (max_size : Nat) (excl : List (List SignedTransaction)) :
    (pull_txns client decode max_size excl).issued =
      { max_block_size := max_size, transactions := gen_exclude_txns excl } := by
  simp only [pull_txns]
  cases client
      { max_block_size := max_size, transactions := gen_exclude_txns excl } with
  | error e => rfl
  | ok receiver => cases receiver <;> rfl

lemma zip_committed_record_congr (txns txns2 : List SignedTransaction)
    (ss ss2 : List TransactionStatus)
    (ht : txns.map txn_identity = txns2.map txn_identity)
    (hs : ss.map TransactionStatus.isDiscard =
      ss2.map TransactionStatus.isDiscard) :
    (txns.zip ss).map committed_record =
      (txns2.zip ss2).map committed_record := by
  induction txns generalizing txns2 ss ss2 with
  | nil =>
    cases txns2 with
    | nil => simp
    | cons t2 rest2 => simp at ht
  | cons t rest ih =>
    cases txns2 with
    | nil => simp at ht
    | cons t2 rest2 =>
      cases ss with
      | nil =>
        cases ss2 with
        | nil => simp
        | cons s2 srest2 => simp at hs
      | cons s srest =>
        cases ss2 with
        | nil => simp at hs
        | cons s2 srest2 =>
          simp only [List.map_cons, List.cons.injEq] at ht hs
          simp only [List.zip_cons_cons, List.map_cons, List.cons.injEq]
          refine ⟨?_, ih rest2 srest srest2 ht.2 hs.2⟩
          have hid := ht.1
          simp only [txn_identity, Prod.mk.injEq] at hid
          simp [committed_record, hid.1, hid.2, hs.1]

/-! Claim theorems. -/

/-- C1 (counterexample evidence): the claim fails on the code. With
`txns = [x]` and `compute_status = [Discard 0, Keep 0]`, the emitted record
for `x` has `is_rejected = true`, although `compute_status[1]` is the Keep
variant: the loop pairs `txns[i]` with `compute_status[i]` (the full list,
prologue included), not with `compute_status[i+1]` as the claim — and the
source's own comment about excluding the prologue — demand. -/
theorem commit_is_rejected_off_by_one :
    ((gen_commit_transactions_request counters0
        [{ sender := [1], sequence_number := 0, payload := 0, signature := 0 }]
        { compute_status :=
            [TransactionStatus.Discard 0, TransactionStatus.Keep 0] }
        7).map fun r => r.2.transactions.map CommittedTransaction.is_rejected) =
      some [true] ∧
    ([TransactionStatus.Discard 0, TransactionStatus.Keep 0].get? 1).map
        TransactionStatus.isDiscard = some false := by
  decide

/-- C2 (counterexample evidence): the prologue status does influence the
emitted request. Two calls that differ only in `compute_status[0]`
(Discard versus Keep) emit different `CommitTransactionsRequest`s. -/
theorem prologue_status_influences_request :
    ((gen_commit_transactions_request counters0
        [{ sender := [1], sequence_number := 0, payload := 0, signature := 0 }]
        { compute_status :=
            [TransactionStatus.Discard 0, TransactionStatus.Keep 0] }
        7).map fun r => r.2) ≠
      ((gen_commit_transactions_request counters0
        [{ sender := [1], sequence_number := 0, payload := 0, signature := 0 }]
        { compute_status :=
            [TransactionStatus.Keep 0, TransactionStatus.Keep 0] }
        7).map fun r => r.2) := by
  decide

/-- C3: a `commit_txns` call with `|compute_status| ≠ |txns| + 1` terminates
with the fatal abort (`outcome = none`) and hands no request to the RPC
client; under the alignment precondition the abort branch is unreachable. -/
theorem commit_txns_alignment_fatality {Err : Type}
    (client : CommitTransactionsRequest → Except Err (Except Err Unit))
    (c : Counters) (txns : List SignedTransaction)
    (compute_result : StateComputeResult) (ts : Nat) :
    (compute_result.compute_status.length ≠ txns.length + 1 →
      (commit_txns client c txns compute_result ts).outcome = none ∧
      (commit_txns client c txns compute_result ts).issued = []) ∧
    (compute_result.compute_status.length = txns.length + 1 →
      (commit_txns client c txns compute_result ts).outcome ≠ none) := by
  constructor
  · intro h
    constructor <;> simp [commit_txns, gen_eq_none_of_misaligned _ _ _ _ h]
  · intro h
    have hg := fun cc => gen_eq_of_aligned cc txns compute_result ts h
    simp [commit_txns, hg]

/-- C3 witness: concrete misaligned and aligned calls. -/
theorem commit_txns_alignment_fatality_witness :
    (commit_txns
        (fun _ => (Except.ok (Except.ok ()) : Except Nat (Except Nat Unit)))
        counters0 [] { compute_status := [] } 0).outcome = none ∧
    (commit_txns
        (fun _ => (Except.ok (Except.ok ()) : Except Nat (Except Nat Unit)))
        counters0 [] { compute_status := [TransactionStatus.Keep 0] }
        0).outcome ≠ none :=
  ⟨((commit_txns_alignment_fatality _ counters0 [] _ 0).1 (by decide)).1,
   (commit_txns_alignment_fatality _ counters0 [] _ 0).2 (by decide)⟩

/-- C4: every `pull_txns` call emits a `GetBlockRequest` whose
`max_block_size` is the requested `max_size` and whose exclusion list is the
concatenation, in call order, of the per-payload (sender, sequence_number)
projections, duplicates preserved. -/
theorem pull_txns_request_faithful {W E Err : Type}
    (client : GetBlockRequest → Except Err (Except Err (GetBlockResponse W)))
    (decode : W → Except E SignedTransaction)
    (max_size : Nat) (exclude_payloads : List (List SignedTransaction)) :
    (pull_txns client decode max_size exclude_payloads).issued.max_block_size =
      max_size ∧
    (pull_txns client decode max_size exclude_payloads).issued.transactions =
      (exclude_payloads.map fun p => p.map to_exclusion).flatten := by
  rw [pull_txns_issued]
  exact ⟨rfl, gen_exclude_txns_eq exclude_payloads⟩

/-- C5: on a successful `get_block` response carrying wire transactions `ws`,
the returned payload is `ws` mapped through the decoder in the original
server order, an element dropped exactly when its decode fails. -/
theorem pull_txns_order_preservation {W E Err : Type}
    (client : GetBlockRequest → Except Err (Except Err (GetBlockResponse W)))
    (decode : W → Except E SignedTransaction)
    (max_size : Nat) (excl : List (List SignedTransaction)) (ws : List W)
    (h : client { max_block_size := max_size
                  transactions := gen_exclude_txns excl } =
      Except.ok (Except.ok { block := some { transactions := ws } })) :
    (pull_txns client decode max_size excl).outcome =
      Except.ok (ws.filterMap fun w => (decode w).toOption) := by
  simp [pull_txns, h, decode_fst_eq_filterMap]

/-- C5 witness: a mock server returning `[2, 3, 4]` under `decode_even`. -/
theorem pull_txns_order_preservation_witness :
    (pull_txns
        (fun _ =>
          (Except.ok (Except.ok { block := some { transactions := [2, 3, 4] } }) :
            Except Nat (Except Nat (GetBlockResponse Nat))))
        decode_even 10 []).outcome =
      Except.ok
        [{ sender := [2], sequence_number := 2, payload := 0, signature := 0 },
         { sender := [4], sequence_number := 4, payload := 0, signature := 0 }] :=
  (pull_txns_order_preservation _ decode_even 10 [] [2, 3, 4] rfl).trans (by rfl)

/-- C6: if the `get_block` response carries `n` wire transactions of which
exactly `k` fail to decode, the call resolves successfully with a payload of
length `n - k` and exactly `k` audit events are emitted. -/
theorem pull_txns_decode_failure_isolation {W E Err : Type}
    (client : GetBlockRequest → Except Err (Except Err (GetBlockResponse W)))
    (decode : W → Except E SignedTransaction)
    (max_size : Nat) (excl : List (List SignedTransaction)) (ws : List W)
    (h : client { max_block_size := max_size
                  transactions := gen_exclude_txns excl } =
      Except.ok (Except.ok { block := some { transactions := ws } })) :
    ∃ payload,
      (pull_txns client decode max_size excl).outcome = Except.ok payload ∧
      payload.length =
        ws.length - (ws.countP fun w => (decode w).toOption.isNone) ∧
      (pull_txns client decode max_size excl).audit.length =
        ws.countP fun w => (decode w).toOption.isNone := by
  refine ⟨(decode_block_transactions decode ws).1, ?_, ?_, ?_⟩
  · simp [pull_txns, h]
  · have h1 := decode_lengths_sum decode ws
    have h2 := decode_snd_length decode ws
    omega
  · simp [pull_txns, h, decode_snd_length]

/-- C6 witness: four wire transactions of which two fail under
`decode_even`. -/
theorem pull_txns_decode_failure_isolation_witness :
    ∃ payload,
      (pull_txns
          (fun _ =>
            (Except.ok
                (Except.ok { block := some { transactions := [2, 3, 4, 5] } }) :
              Except Nat (Except Nat (GetBlockResponse Nat))))
          decode_even 10 []).outcome = Except.ok payload ∧
      payload.length =
        [2, 3, 4, 5].length -
          ([2, 3, 4, 5].countP fun w => (decode_even w).toOption.isNone) ∧
      (pull_txns
          (fun _ =>
            (Except.ok
                (Except.ok { block := some { transactions := [2, 3, 4, 5] } }) :
              Except Nat (Except Nat (GetBlockResponse Nat))))
          decode_even 10 []).audit.length =
        [2, 3, 4, 5].countP fun w => (decode_even w).toOption.isNone :=
  pull_txns_decode_failure_isolation _ decode_even 10 [] [2, 3, 4, 5] rfl

/-- C7: under the alignment precondition, `commit_txns` bumps the block
counter by exactly one, appends exactly one histogram observation of
`|txns|`, and ticks the two outcome counters a combined `|txns|` times,
whatever the RPC client does. -/
theorem commit_txns_counter_parity {Err : Type}
    (client : CommitTransactionsRequest → Except Err (Except Err Unit))
    (c : Counters) (txns : List SignedTransaction)
    (compute_result : StateComputeResult) (ts : Nat)
    (h : compute_result.compute_status.length = txns.length + 1) :
    (commit_txns client c txns compute_result ts).counters.committed_blocks_count =
      c.committed_blocks_count + 1 ∧
    (commit_txns client c txns compute_result ts).counters.num_txns_per_block_obs =
      c.num_txns_per_block_obs ++ [txns.length] ∧
    (commit_txns client c txns compute_result ts).counters.committed_txns_success +
        (commit_txns client c txns compute_result ts).counters.committed_txns_failed =
      c.committed_txns_success + c.committed_txns_failed + txns.length := by
  have hg := fun cc => gen_eq_of_aligned cc txns compute_result ts h
  have hsum :=
    countP_add_countP_not (fun p : SignedTransaction × TransactionStatus =>
      p.2.isDiscard) (txns.zip compute_result.compute_status)
  have hzip : (txns.zip compute_result.compute_status).length = txns.length := by
    rw [List.length_zip]
    omega
  refine ⟨?_, ?_, ?_⟩
  · simp [commit_txns, hg]
  · simp [commit_txns, hg]
  · simp [commit_txns, hg]
    omega

/-- C7 witness: a one-Keep one-Discard block of two transactions. -/
theorem commit_txns_counter_parity_witness :
    (commit_txns
        (fun _ => (Except.ok (Except.ok ()) : Except Nat (Except Nat Unit)))
        counters0
        [{ sender := [1], sequence_number := 0, payload := 0, signature := 0 },
         { sender := [2], sequence_number := 1, payload := 0, signature := 0 }]
        { compute_status :=
            [TransactionStatus.Keep 0, TransactionStatus.Keep 0,
             TransactionStatus.Discard 0] }
        5).counters.committed_blocks_count = counters0.committed_blocks_count + 1 ∧
    (commit_txns
        (fun _ => (Except.ok (Except.ok ()) : Except Nat (Except Nat Unit)))
        counters0
        [{ sender := [1], sequence_number := 0, payload := 0, signature := 0 },
         { sender := [2], sequence_number := 1, payload := 0, signature := 0 }]
        { compute_status :=
            [TransactionStatus.Keep 0, TransactionStatus.Keep 0,
             TransactionStatus.Discard 0] }
        5).counters.num_txns_per_block_obs =
      counters0.num_txns_per_block_obs ++ [2] ∧
    (commit_txns
        (fun _ => (Except.ok (Except.ok ()) : Except Nat (Except Nat Unit)))
        counters0
        [{ sender := [1], sequence_number := 0, payload := 0, signature := 0 },
         { sender := [2], sequence_number := 1, payload := 0, signature := 0 }]
        { compute_status :=
            [TransactionStatus.Keep 0, TransactionStatus.Keep 0,
             TransactionStatus.Discard 0] }
        5).counters.committed_txns_success +
      (commit_txns
        (fun _ => (Except.ok (Except.ok ()) : Except Nat (Except Nat Unit)))
        counters0
        [{ sender := [1], sequence_number := 0, payload := 0, signature := 0 },
         { sender := [2], sequence_number := 1, payload := 0, signature := 0 }]
        { compute_status :=
            [TransactionStatus.Keep 0, TransactionStatus.Keep 0,
             TransactionStatus.Discard 0] }
        5).counters.committed_txns_failed =
      counters0.committed_txns_success + counters0.committed_txns_failed + 2 :=
  commit_txns_counter_parity _ counters0 _ _ 5 (by decide)

/-- C8: a transport error — synchronous rejection by the RPC client or an
error from the awaited completion handle — resolves the returned future of
either operation with exactly that error, with no payload. -/
theorem transport_error_propagation {W E Err : Type} (e : Err)
    (c : Counters) (txns : List SignedTransaction)
    (compute_result : StateComputeResult) (ts : Nat)
    (decode : W → Except E SignedTransaction)
    (max_size : Nat) (excl : List (List SignedTransaction))
    (h : compute_result.compute_status.length = txns.length + 1) :
    (commit_txns (fun _ => Except.error e) c txns compute_result ts).outcome =
      some (Except.error e) ∧
    (commit_txns (fun _ => Except.ok (Except.error e)) c txns compute_result
        ts).outcome = some (Except.error e) ∧
    (pull_txns
        (fun _ => (Except.error e : Except Err (Except Err (GetBlockResponse W))))
        decode max_size excl).outcome = Except.error e ∧
    (pull_txns (fun _ => Except.ok (Except.error e)) decode max_size
        excl).outcome = Except.error e := by
  have hg := fun cc => gen_eq_of_aligned cc txns compute_result ts h
  refine ⟨?_, ?_, ?_, ?_⟩ <;>
    simp [commit_txns, pull_txns, submit_commit_transactions_request, hg]

/-- C8 witness: concrete failing clients on both paths. -/
theorem transport_error_propagation_witness :
    (commit_txns (fun _ => (Except.error 9 : Except Nat (Except Nat Unit)))
        counters0 [] { compute_status := [TransactionStatus.Keep 0] }
        0).outcome = some (Except.error 9) ∧
    (commit_txns (fun _ => Except.ok (Except.error 9)) counters0 []
        { compute_status := [TransactionStatus.Keep 0] } 0).outcome =
      some (Except.error 9) ∧
    (pull_txns
        (fun _ => (Except.error 9 : Except Nat (Except Nat (GetBlockResponse Nat))))
        decode_even 10 []).outcome = Except.error 9 ∧
    (pull_txns (fun _ => Except.ok (Except.error 9)) decode_even 10
        []).outcome = Except.error 9 :=
  transport_error_propagation 9 counters0 [] _ 0 decode_even 10 [] (by decide)

/-- C9: a successful `get_block` response with no `block` field resolves the
call with the empty payload and no audit events. -/
theorem pull_txns_absent_block_empty {W E Err : Type}
    (client : GetBlockRequest → Except Err (Except Err (GetBlockResponse W)))
    (decode : W → Except E SignedTransaction)
    (max_size : Nat) (excl : List (List SignedTransaction))
    (h : client { max_block_size := max_size
                  transactions := gen_exclude_txns excl } =
      Except.ok (Except.ok { block := none })) :
    (pull_txns client decode max_size excl).outcome = Except.ok [] ∧
    (pull_txns client decode max_size excl).audit = [] := by
  constructor <;> simp [pull_txns, h, decode_block_transactions]

/-- C9 witness: a concrete blockless response. -/
theorem pull_txns_absent_block_empty_witness :
    (pull_txns
        (fun _ =>
          (Except.ok (Except.ok { block := none }) :
            Except Nat (Except Nat (GetBlockResponse Nat))))
        decode_even 10 []).outcome = Except.ok [] ∧
    (pull_txns
        (fun _ =>
          (Except.ok (Except.ok { block := none }) :
            Except Nat (Except Nat (GetBlockResponse Nat))))
        decode_even 10 []).audit = [] :=
  pull_txns_absent_block_empty _ decode_even 10 [] rfl

/-- C10: the result of `gen_commit_transactions_request` depends only on each
transaction's (sender, sequence_number) identity, the Keep/Discard variants
of the compute statuses, and the timestamp: two calls agreeing on those
projections produce identical results, so a transaction's payload and
signature are never transmitted on the commit path. -/
theorem commit_request_noninterference (c : Counters)
    (txns txns2 : List SignedTransaction)
    (compute_result compute_result2 : StateComputeResult) (ts : Nat)
    (ht : txns.map txn_identity = txns2.map txn_identity)
    (hs : compute_result.compute_status.map TransactionStatus.isDiscard =
      compute_result2.compute_status.map TransactionStatus.isDiscard) :
    gen_commit_transactions_request c txns compute_result ts =
      gen_commit_transactions_request c txns2 compute_result2 ts := by
  have hlt : txns.length = txns2.length := by
    have hmap := congrArg List.length ht
    simpa using hmap
  have hls : compute_result.compute_status.length =
      compute_result2.compute_status.length := by
    have hmap := congrArg List.length hs
    simpa using hmap
  by_cases hl : compute_result.compute_status.length = txns.length + 1
  · have hl2 : compute_result2.compute_status.length = txns2.length + 1 := by
      omega
    rw [gen_eq_of_aligned c txns compute_result ts hl,
      gen_eq_of_aligned c txns2 compute_result2 ts hl2]
    have hrec := zip_committed_record_congr txns txns2
      compute_result.compute_status compute_result2.compute_status ht hs
    have hd : ((txns.zip compute_result.compute_status).countP
          fun p => p.2.isDiscard) =
        ((txns2.zip compute_result2.compute_status).countP
          fun p => p.2.isDiscard) := by
      have hc := congrArg
        (List.countP fun r : CommittedTransaction => r.is_rejected) hrec
      simpa [List.countP_map, Function.comp, committed_record] using hc
    have hk : ((txns.zip compute_result.compute_status).countP
          fun p => !p.2.isDiscard) =
        ((txns2.zip compute_result2.compute_status).countP
          fun p => !p.2.isDiscard) := by
      have hc := congrArg
        (List.countP fun r : CommittedTransaction => !r.is_rejected) hrec
      simpa [List.countP_map, Function.comp, committed_record] using hc
    rw [hrec, hd, hk]
  · have hl2 : compute_result2.compute_status.length ≠ txns2.length + 1 := by
      omega
    rw [gen_eq_none_of_misaligned c txns compute_result ts hl,
      gen_eq_none_of_misaligned c txns2 compute_result2 ts hl2]

/-- C10 witness: two calls differing only in payloads, signatures and status
detail codes produce the same result. -/
theorem commit_request_noninterference_witness :
    gen_commit_transactions_request counters0
        [{ sender := [3], sequence_number := 5, payload := 10, signature := 11 }]
        { compute_status :=
            [TransactionStatus.Keep 1, TransactionStatus.Discard 2] } 42 =
      gen_commit_transactions_request counters0
        [{ sender := [3], sequence_number := 5, payload := 99, signature := 98 }]
        { compute_status :=
            [TransactionStatus.Keep 7, TransactionStatus.Discard 8] } 42 :=
  commit_request_noninterference counters0 _ _ _ _ 42 (by decide) (by decide)

end TxnManager
